/-
Verification of the Cortex Analyst Streamlit app (cortex_analyst_streamlit.py).

The file gives a shallow embedding of the script: configuration loading and
connection startup, the message dispatcher (send_message), the content
renderer (display_content), the turn orchestrator (process_message) and one
full rerun of the script body (script_run), together with theorems checking
the specification's claims about them.
-/
import Mathlib

namespace CortexAnalyst

/-! Decimal rendering of naturals, modelling Python str() as used in the
widget-key f-string.  Defined with structural fuel so that the kernel can
evaluate it, with an injectivity proof via a decimal parser. -/

/-- Character for a single decimal digit; values 10 and above never occur. -/
def digitChar (d : Nat) : Char :=
  if d = 0 then '0' else if d = 1 then '1' else if d = 2 then '2'
  else if d = 3 then '3' else if d = 4 then '4' else if d = 5 then '5'
  else if d = 6 then '6' else if d = 7 then '7' else if d = 8 then '8'
  else if d = 9 then '9' else '*'

/-- Numeric value of a digit character. -/
def digitVal (c : Char) : Nat := c.toNat - 48

/-- Digit-list accumulator for decimal rendering; first argument is fuel. -/
def natStrGo : Nat → Nat → List Char → List Char
  | 0, _, acc => acc
  | fuel+1, n, acc =>
    if n < 10 then digitChar n :: acc
    else natStrGo fuel (n / 10) (digitChar (n % 10) :: acc)

/-- Decimal digit list of a natural number. -/
def natChars (n : Nat) : List Char := natStrGo (n + 1) n []

/-- Decimal string of a natural number, as Python str() renders it. -/
def natStr (n : Nat) : String := ⟨natChars n⟩

/-- Decimal parser used to invert natChars. -/
def parseNum (l : List Char) : Nat := l.foldl (fun a c => a * 10 + digitVal c) 0

theorem digitVal_digitChar {d : Nat} (h : d < 10) : digitVal (digitChar d) = d := by
  interval_cases d <;> decide

theorem digitChar_ne_underscore {d : Nat} (h : d < 10) : digitChar d ≠ '_' := by
  interval_cases d <;> decide

theorem natStrGo_acc (fuel : Nat) : ∀ n acc, natStrGo fuel n acc = natStrGo fuel n [] ++ acc := by
  induction fuel with
  | zero => intro n acc; simp [natStrGo]
  | succ fuel ih =>
    intro n acc
    by_cases h : n < 10
    · simp [natStrGo, h]
    · simp only [natStrGo, if_neg h]
      rw [ih (n / 10) (digitChar (n % 10) :: acc), ih (n / 10) [digitChar (n % 10)]]
      simp

theorem natStrGo_fuel (f1 : Nat) : ∀ f2 n acc, n < f1 → n < f2 →
    natStrGo f1 n acc = natStrGo f2 n acc := by
  induction f1 with
  | zero => intro f2 n acc h1; omega
  | succ f1 ih =>
    intro f2 n acc h1 h2
    match f2, h2 with
    | f2+1, h2 =>
      by_cases h : n < 10
      · simp [natStrGo, h]
      · simp only [natStrGo, if_neg h]
        exact ih f2 (n / 10) _ (by omega) (by omega)

theorem mem_natStrGo (fuel : Nat) : ∀ n acc c, c ∈ natStrGo fuel n acc →
    (∃ d, d < 10 ∧ c = digitChar d) ∨ c ∈ acc := by
  induction fuel with
  | zero => intro n acc c h; right; simpa [natStrGo] using h
  | succ fuel ih =>
    intro n acc c h
    by_cases hn : n < 10
    · simp only [natStrGo, if_pos hn, List.mem_cons] at h
      rcases h with h | h
      · exact Or.inl ⟨n, hn, h⟩
      · exact Or.inr h
    · simp only [natStrGo, if_neg hn] at h
      rcases ih (n / 10) _ c h with h' | h'
      · exact Or.inl h'
      · rcases List.mem_cons.mp h' with h'' | h''
        · exact Or.inl ⟨n % 10, by omega, h''⟩
        · exact Or.inr h''

theorem underscore_not_mem_natChars (n : Nat) : '_' ∉ natChars n := by
  intro h
  rcases mem_natStrGo (n + 1) n [] '_' h with ⟨d, hd, he⟩ | h'
  · exact digitChar_ne_underscore hd he.symm
  · simp at h'

theorem parseNum_natChars (n : Nat) : parseNum (natChars n) = n := by
  induction n using Nat.strong_induction_on with
  | _ n ih =>
    by_cases h : n < 10
    · simp [natChars, natStrGo, h, parseNum, digitVal_digitChar h]
    · have hstep : natChars n = natChars (n / 10) ++ [digitChar (n % 10)] := by
        have h1 : natChars n = natStrGo (n + 1) n [] := rfl
        rw [natChars]
        have hn1 : natStrGo (n + 1) n [] = natStrGo n (n / 10) [digitChar (n % 10)] := by
          simp [natStrGo, h]
        rw [hn1, natStrGo_acc n (n / 10) [digitChar (n % 10)]]
        have : natStrGo n (n / 10) [] = natStrGo (n / 10 + 1) (n / 10) [] :=
          natStrGo_fuel n (n / 10 + 1) (n / 10) [] (by omega) (by omega)
        rw [this]; rfl
      rw [hstep, parseNum, List.foldl_append]
      have hrec : List.foldl (fun a c => a * 10 + digitVal c) 0 (natChars (n / 10)) = n / 10 :=
        ih (n / 10) (by omega)
      simp only [List.foldl_cons, List.foldl_nil, hrec]
      rw [digitVal_digitChar (by omega : n % 10 < 10)]
      omega

theorem natChars_inj {a b : Nat} (h : natChars a = natChars b) : a = b := by
  have := congrArg parseNum h
  rwa [parseNum_natChars, parseNum_natChars] at this

/-- Splitting a digit-separator-digit concatenation at the separator. -/
theorem append_sep_split : ∀ (xs xs' ys ys' : List Char), '_' ∉ xs → '_' ∉ xs' →
    xs ++ '_' :: ys = xs' ++ '_' :: ys' → xs = xs' ∧ ys = ys' := by
  intro xs
  induction xs with
  | nil =>
    intro xs' ys ys' _ hx' h
    cases xs' with
    | nil => simpa using h
    | cons c t =>
      simp only [List.nil_append, List.cons_append, List.cons.injEq] at h
      exact absurd (h.1 ▸ List.mem_cons_self c t) hx'
  | cons c t ih =>
    intro xs' ys ys' hx hx' h
    cases xs' with
    | nil =>
      simp only [List.cons_append, List.nil_append, List.cons.injEq] at h
      exact absurd (h.1 ▸ List.mem_cons_self c t) hx
    | cons c' t' =>
      simp only [List.cons_append, List.cons.injEq] at h
      obtain ⟨rfl, h2⟩ := h
      have := ih t' ys ys' (fun hm => hx (List.mem_cons_of_mem _ hm))
        (fun hm => hx' (List.mem_cons_of_mem _ hm)) h2
      exact ⟨by rw [this.1], this.2⟩

/-- Widget key built by the f-string in display_content:
the decimal index, an underscore, the decimal suggestion position. -/
def suggKey (i j : Nat) : String := natStr i ++ "_" ++ natStr j

theorem suggKey_data (i j : Nat) : (suggKey i j).data = natChars i ++ '_' :: natChars j := by
  show ((natStr i ++ "_") ++ natStr j).data = _
  have h1 : ∀ a b : String, (a ++ b).data = a.data ++ b.data := fun a b => rfl
  rw [h1, h1]
  simp [natStr]

theorem suggKey_inj {a b c d : Nat} (h : suggKey a b = suggKey c d) : a = c ∧ b = d := by
  have hd : (suggKey a b).data = (suggKey c d).data := by rw [h]
  rw [suggKey_data, suggKey_data] at hd
  have := append_sep_split (natChars a) (natChars c) (natChars b) (natChars d)
    (underscore_not_mem_natChars a) (underscore_not_mem_natChars c) hd
  exact ⟨natChars_inj this.1, natChars_inj this.2⟩

theorem suggKey_ne_left {a b c d : Nat} (h : a ≠ c) : suggKey a b ≠ suggKey c d :=
  fun he => h (suggKey_inj he).1

theorem suggKey_ne_right {a b d : Nat} (h : b ≠ d) : suggKey a b ≠ suggKey a d :=
  fun he => h (suggKey_inj he).2

/-! Data model: content blocks, turns, configuration, dataframes, the
HTTP layer and the session state, translated from the source. -/

/-- One typed content item of a message, as dispatched by display_content.
The source dispatches on the string tag of a JSON dict with if/elif and no
else branch, so a block whose tag is none of "text", "suggestions", "sql"
is representable and renders nothing. -/
inductive ContentBlock where
  | text (s : String)
  | suggestions (ss : List String)
  | sql (statement : String)
  | other (tag : String)
deriving DecidableEq

/-- Whether display_content has a branch for this block. -/
def ContentBlock.known : ContentBlock → Bool
  | .other _ => false
  | _ => true

/-- One entry of st.session_state.messages.  The user entry appended by
process_message carries no request_id key, modelled as none. -/
structure Turn where
  role : String
  content : List ContentBlock
  request_id : Option String
deriving DecidableEq

/-- The snowflake secrets section: a partial key-value mapping. -/
def Config : Type := String → Option String

/-- Result of pd.read_sql_query: an index of row labels, column names,
and row-major cell data. -/
structure Df where
  index : List String
  cols : List String
  rows : List (List String)
deriving DecidableEq

/-- Model of pandas set_index(df.columns[0]): the first column becomes the
index, the remaining columns keep their data. -/
def Df.set_index_first (d : Df) : Df :=
  { index := d.rows.map (fun r => r.headD "")
    cols := d.cols.drop 1
    rows := d.rows.map (fun r => r.drop 1) }

/-- The dataframe passed to st.line_chart and st.bar_chart at lines
106-111: reassigned by set_index when there is more than one column. -/
def Df.chart_df (d : Df) : Df :=
  if 1 < d.cols.length then d.set_index_first else d

/-- One st.button rendered for a suggestion: the logical turn the content
belongs to, the enumeration position, the f-string widget key, the label. -/
structure SuggButton where
  turn : Nat
  sidx : Nat
  key : String
  label : String
deriving DecidableEq

/-- One UI call observable in a render pass. -/
inductive RenderEvent where
  | markdown (s : String)
  | requestIdPanel (rid : String)
  | suggestionsPanel (btns : List SuggButton)
  | sqlCode (stmt : String)
  | dataframeView (df : Df)
  | lineChartView (df : Df)
  | barChartView (df : Df)
  | errorShown (tag : String)
  | successShown (tag : String)
  | titleShown (s : String)
  | semanticModelShown (f : String)
deriving DecidableEq

/-- The message object inside a reply body, read by
response.get("message", ...).get("content", ...). -/
structure ReplyMsg where
  content : Option (List ContentBlock)
deriving DecidableEq

/-- The parsed JSON body of a successful response. -/
structure Body where
  message : Option ReplyMsg
deriving DecidableEq

/-- Return value of send_message: either the empty dict, or the parsed
body merged with the request_id response header. -/
inductive Reply where
  | empty
  | full (body : Body) (request_id : Option String)
deriving DecidableEq

/-- Model of response.get("request_id") on a send_message result. -/
def Reply.requestId : Reply → Option String
  | .empty => none
  | .full _ rid => rid

/-- Model of response.get("message", dict()).get("content", []) on a
send_message result. -/
def Reply.messageContent : Reply → List ContentBlock
  | .empty => []
  | .full b _ =>
    match b.message with
    | none => []
    | some m => m.content.getD []

/-- The POST request assembled in send_message. -/
structure HttpRequest where
  url : String
  body_messages : List Turn
  semantic_model_file : String
  authorization : String
  content_type : String
deriving DecidableEq

/-- What one HTTP attempt can come back with: a raised transport error, or
a response with a status code, the optional X-Snowflake-Request-Id header
and a body (none when resp.json() raises). -/
inductive HttpOutcome where
  | raised
  | response (status : Nat) (requestIdHeader : Option String) (body : Option Body)
deriving DecidableEq

/-- Outcome of snowflake.connector.connect with all parameters present. -/
inductive ConnectResult where
  | success (token : String)
  | failure
deriving DecidableEq

/-- How the module-level part of the script (lines 8-29 and 116-117) ends:
halted by st.stop, crashed on an uncaught exception, or ready. -/
inductive StartupResult where
  | halted (events : List RenderEvent)
  | crashed (events : List RenderEvent)
  | ready (events : List RenderEvent) (token : String)
deriving DecidableEq

/-- Whether startup ended in st.stop. -/
def StartupResult.isHalted : StartupResult → Bool
  | .halted _ => true
  | _ => false

/-- The mutable session state the script body reads and writes. -/
structure SessionState where
  messages : List Turn
  active_suggestion : Option String
  suggestions : List String
deriving DecidableEq

/-- Result of one process_message call. -/
structure ProcResult where
  state : SessionState
  events : List RenderEvent
  requests : List HttpRequest
deriving DecidableEq

/-- Result of one full rerun of the script body (lines 126-141):
final state, render events, prompts passed to process_message, and the
HTTP requests issued. -/
structure RunResult where
  state : SessionState
  events : List RenderEvent
  processed : List String
  requests : List HttpRequest
deriving DecidableEq

/-! Operations translated from the source. -/

/-- Line 83: message_index = message_index or len(st.session_state.messages).
Python truthiness makes both None and 0 fall back to the current log
length. -/
def effective_index (message_index : Option Nat) (curLen : Nat) : Nat :=
  match message_index with
  | none => curLen
  | some 0 => curLen
  | some i => i

/-- The logical turn the rendered content belongs to: the loop index when
rendering the transcript, the index the assistant turn is appended at when
rendering live inside process_message. -/
def logical_index (message_index : Option Nat) (curLen : Nat) : Nat :=
  message_index.getD curLen

/-- Lines 92-93: the buttons produced by enumerate(item["suggestions"]),
with the f-string key of each. -/
def suggButtonsFrom (idx logical : Nat) : Nat → List String → List SuggButton
  | _, [] => []
  | j, lab :: rest => ⟨logical, j, suggKey idx j, lab⟩ :: suggButtonsFrom idx logical (j + 1) rest

/-- Sequential effect of the button ifs on st.session_state.active_suggestion:
a click stores that button's label. -/
def applyClicks (clicked : String → Bool) (active : Option String)
    (btns : List SuggButton) : Option String :=
  btns.foldl (fun a bt => if clicked bt.key then some bt.label else a) active

/-- Lines 87-113: rendering of one content item, and its effect on
active_suggestion.  The db argument models pd.read_sql_query. -/
def display_block (db : String → Df) (clicked : String → Bool) (idx logical : Nat)
    (active : Option String) : ContentBlock → List RenderEvent × Option String
  | .text s => ([.markdown s], active)
  | .suggestions ss =>
    let btns := suggButtonsFrom idx logical 0 ss
    ([.suggestionsPanel btns], applyClicks clicked active btns)
  | .sql stmt =>
    let df := db stmt
    let views :=
      if 1 < df.index.length then
        [RenderEvent.dataframeView df, .lineChartView df.chart_df, .barChartView df.chart_df]
      else [RenderEvent.dataframeView df]
    (RenderEvent.sqlCode stmt :: views, active)
  | .other _ => ([], active)

/-- The for-loop of display_content over the content list. -/
def display_blocks (db : String → Df) (clicked : String → Bool) (idx logical : Nat) :
    List ContentBlock → Option String → List RenderEvent × Option String
  | [], active => ([], active)
  | b :: rest, active =>
    let e := display_block db clicked idx logical active b
    let es := display_blocks db clicked idx logical rest e.2
    (e.1 ++ es.1, es.2)

/-- Lines 77-113: display_content.  curLen is len(st.session_state.messages)
at call time; the request-id expander is gated on the truthiness of
request_id, so the empty string renders nothing. -/
def display_content (db : String → Df) (clicked : String → Bool)
    (content : List ContentBlock) (request_id : Option String)
    (message_index : Option Nat) (curLen : Nat) (active : Option String) :
    List RenderEvent × Option String :=
  let idx := effective_index message_index curLen
  let logical := logical_index message_index curLen
  let ridEvs :=
    match request_id with
    | some r => if r ≠ "" then [RenderEvent.requestIdPanel r] else []
    | none => []
  let bs := display_blocks db clicked idx logical content active
  (ridEvs ++ bs.1, bs.2)

/-- Lines 36-47: the request body, URL and headers built in send_message.
Returns none when a required config key is missing, in which case the
KeyError is raised before any HTTP attempt and caught by the handler. -/
def buildRequest (cfg : Config) (token prompt : String) : Option HttpRequest :=
  match cfg "database", cfg "schema", cfg "stage", cfg "file", cfg "host" with
  | some d, some s, some g, some f, some h =>
    some
      { url := "https://" ++ h ++ "/api/v2/cortex/analyst/message"
        body_messages := [⟨"user", [.text prompt], none⟩]
        semantic_model_file := "@" ++ d ++ "." ++ s ++ "." ++ g ++ "/" ++ f
        authorization := "Snowflake Token=\"" ++ token ++ "\""
        content_type := "application/json" }
  | _, _, _, _, _ => none

/-- Lines 33-56: send_message.  Returns the reply together with the list of
HTTP attempts actually made.  Every failure path is caught and yields the
empty dict; nothing propagates to the caller. -/
def send_message (cfg : Config) (token : String)
    (transport : HttpRequest → HttpOutcome) (prompt : String) :
    Reply × List HttpRequest :=
  match buildRequest cfg token prompt with
  | none => (.empty, [])
  | some req =>
    match transport req with
    | .raised => (.empty, [req])
    | .response status ridHeader body =>
      if status < 400 then
        match body with
        | none => (.empty, [req])
        | some b => (.full b ridHeader, [req])
      else (.empty, [req])

/-- Lines 59-74: process_message.  Appends the user turn, dispatches the
prompt, renders the assistant content live (with message_index None and the
log already holding the user turn), then appends the assistant turn. -/
def process_message (cfg : Config) (token : String)
    (transport : HttpRequest → HttpOutcome) (db : String → Df)
    (clicked : String → Bool) (st : SessionState) (prompt : String) : ProcResult :=
  let msgs1 := st.messages ++ [⟨"user", [.text prompt], none⟩]
  let sm := send_message cfg token transport prompt
  let rid := sm.1.requestId
  let content := sm.1.messageContent
  let dc := display_content db clicked content rid none msgs1.length st.active_suggestion
  { state :=
      { st with
        messages := msgs1 ++ [⟨"assistant", content, rid⟩]
        active_suggestion := dc.2 }
    events := RenderEvent.markdown prompt :: dc.1
    requests := sm.2 }

/-- Lines 126-132: the transcript render loop, carried out from index i with
curLen fixed at the length of the full log. -/
def transcript_go (db : String → Df) (clicked : String → Bool) (curLen i : Nat) :
    List Turn → Option String → List RenderEvent × Option String
  | [], active => ([], active)
  | m :: rest, active =>
    let e := display_content db clicked m.content m.request_id (some i) curLen active
    let es := transcript_go db clicked curLen (i + 1) rest e.2
    (e.1 ++ es.1, es.2)

/-- Python truthiness of the Optional[str] slot at line 139. -/
def truthy : Option String → Bool
  | none => false
  | some s => s ≠ ""

/-- Lines 134-136: the chat-input phase of a rerun. -/
def chat_phase (cfg : Config) (token : String)
    (transport : HttpRequest → HttpOutcome) (db : String → Df)
    (clicked : String → Bool) (st : SessionState) : Option String → RunResult
  | none => ⟨st, [], [], []⟩
  | some p =>
    let r := process_message cfg token transport db clicked st p
    ⟨r.state, r.events, [p], r.requests⟩

/-- Lines 139-141: the active-suggestion phase of a rerun.  The slot is
consumed only when it is truthy: a stored empty string is left in place. -/
def suggestion_phase (cfg : Config) (token : String)
    (transport : HttpRequest → HttpOutcome) (db : String → Df)
    (clicked : String → Bool) (st : SessionState) : RunResult :=
  match st.active_suggestion with
  | some s =>
    if s ≠ "" then
      let r := process_message cfg token transport db clicked st s
      ⟨{ r.state with active_suggestion := none }, r.events, [s], r.requests⟩
    else ⟨st, [], [], []⟩
  | none => ⟨st, [], [], []⟩

/-- Lines 126-141: one rerun of the script body after startup: render the
transcript, process the chat input if any, then consume the active
suggestion if it is truthy. -/
def script_run (cfg : Config) (token : String)
    (transport : HttpRequest → HttpOutcome) (db : String → Df)
    (clicked : String → Bool) (st : SessionState) (chat_input : Option String) :
    RunResult :=
  let tr := transcript_go db clicked st.messages.length 0 st.messages st.active_suggestion
  let st1 : SessionState := { st with active_suggestion := tr.2 }
  let r2 := chat_phase cfg token transport db clicked st1 chat_input
  let r3 := suggestion_phase cfg token transport db clicked r2.state
  ⟨r3.state, tr.1 ++ r2.events ++ r3.events, r2.processed ++ r3.processed,
    r2.requests ++ r3.requests⟩

/-- The config keys read while establishing the connection (lines 17-25);
a KeyError on any of them is caught by the surrounding except and leads to
st.stop. -/
def connectKeys : List String := ["user", "password", "account", "warehouse", "database", "schema", "role"]

/-- All config keys the spec lists for the secrets section. -/
def allConfigKeys : List String := connectKeys ++ ["host", "stage", "file"]

/-- Lines 8-29 and 116-117: module-level startup.  secrets is none when the
snowflake section itself is missing.  A missing connect key surfaces as a
caught connect exception and halts; the title is rendered before the
semantic-model banner reads the file key, whose absence crashes uncaught. -/
def startup (secrets : Option Config) (conn : ConnectResult) : StartupResult :=
  match secrets with
  | none => .halted [.errorShown "config_missing"]
  | some cfg =>
    if connectKeys.all (fun k => (cfg k).isSome) then
      match conn with
      | .failure => .halted [.errorShown "connect_failed"]
      | .success token =>
        match cfg "file" with
        | none => .crashed [.successShown "connected", .titleShown "Cortex Analyst"]
        | some f =>
          .ready [.successShown "connected", .titleShown "Cortex Analyst", .semanticModelShown f] token
    else .halted [.errorShown "connect_failed"]

/-! Observations on render-event lists used by the claims. -/

/-- All suggestion buttons rendered in a pass. -/
def eventButtons : List RenderEvent → List SuggButton
  | [] => []
  | .suggestionsPanel btns :: rest => btns ++ eventButtons rest
  | _ :: rest => eventButtons rest

/-- The content blocks a render-event list exhibits, in order. -/
def eventsToBlocks : List RenderEvent → List ContentBlock
  | [] => []
  | .markdown s :: rest => .text s :: eventsToBlocks rest
  | .suggestionsPanel btns :: rest => .suggestions (btns.map (·.label)) :: eventsToBlocks rest
  | .sqlCode stmt :: rest => .sql stmt :: eventsToBlocks rest
  | _ :: rest => eventsToBlocks rest

/-- The request id shown by a render event, if any. -/
def ridOfEvent : RenderEvent → Option String
  | .requestIdPanel r => some r
  | _ => none

/-- The request id a render-event list exhibits. -/
def eventsRequestId (evs : List RenderEvent) : Option String :=
  evs.findSome? ridOfEvent

/-! Shared helper lemmas. -/

/-- The message log after one process_message call: the previous log, then
the user turn, then the assistant turn built from the dispatcher's reply. -/
theorem process_message_messages (cfg : Config) (token : String)
    (transport : HttpRequest → HttpOutcome) (db : String → Df)
    (clicked : String → Bool) (st : SessionState) (prompt : String) :
    (process_message cfg token transport db clicked st prompt).state.messages =
      st.messages ++
        [⟨"user", [.text prompt], none⟩,
         ⟨"assistant", (send_message cfg token transport prompt).1.messageContent,
          (send_message cfg token transport prompt).1.requestId⟩] := by
  simp [process_message]

/-- Shared concrete fixtures for witnesses. -/
def cfgAll : Config := fun _ => some "v"

def transport500 : HttpRequest → HttpOutcome := fun _ => .response 500 none none

def transport200 : HttpRequest → HttpOutcome :=
  fun _ => .response 200 (some "rid-1") (some ⟨some ⟨some [.text "hi"]⟩⟩)

def dbTwoByTwo : String → Df := fun _ => ⟨["0", "1"], ["c1", "c2"], [["x", "1"], ["y", "2"]]⟩

def noClicks : String → Bool := fun _ => false

/-- The request buildRequest assembles from cfgAll. -/
def reqAll : HttpRequest :=
  ⟨"https://v/api/v2/cortex/analyst/message", [⟨"user", [.text "p"], none⟩],
   "@v.v.v/v", "Snowflake Token=\"tok\"", "application/json"⟩

/-! Claim theorems. -/

/-- C1: one call to process_message appends exactly one user Turn (role
"user", content a single Text block holding the prompt) and exactly one
(hence at most one) assistant Turn to the message log, the user Turn
first, and performs no other log mutation. -/
theorem c1_process_message_appends
    (cfg : Config) (token : String) (transport : HttpRequest → HttpOutcome)
    (db : String → Df) (clicked : String → Bool) (st : SessionState) (prompt : String) :
    (process_message cfg token transport db clicked st prompt).state.messages =
      st.messages ++
        [⟨"user", [.text prompt], none⟩,
         ⟨"assistant", (send_message cfg token transport prompt).1.messageContent,
          (send_message cfg token transport prompt).1.requestId⟩] :=
  process_message_messages cfg token transport db clicked st prompt

/-- C2: with the config keys the request needs present, send_message makes
exactly one HTTP attempt, returns the empty dict exactly when the attempt
raised, the body failed to parse, or the status was at least 400, and on a
status below 400 with a parsed body returns that body together with the
X-Snowflake-Request-Id header value; being a total function it never
raises to its caller. -/
theorem c2_send_message_contract (cfg : Config) (token prompt : String)
    (transport : HttpRequest → HttpOutcome) (req : HttpRequest)
    (h : buildRequest cfg token prompt = some req) :
    (send_message cfg token transport prompt).2 = [req] ∧
    ((send_message cfg token transport prompt).1 = Reply.empty ↔
      (transport req = .raised ∨
        ∃ status rid body, transport req = .response status rid body ∧
          (400 ≤ status ∨ body = none))) ∧
    (∀ status rid b, transport req = .response status rid (some b) → status < 400 →
      (send_message cfg token transport prompt).1 = Reply.full b rid) := by
  rcases htr : transport req with _ | ⟨status, rid, body⟩
  · have hsm : send_message cfg token transport prompt = (Reply.empty, [req]) := by
      simp [send_message, h, htr]
    refine ⟨by rw [hsm], ⟨fun _ => Or.inl rfl, fun _ => by rw [hsm]⟩, ?_⟩
    intro s' r' b' hco
    simp at hco
  · by_cases hst : status < 400
    · rcases body with _ | b
      · have hsm : send_message cfg token transport prompt = (Reply.empty, [req]) := by
          simp [send_message, h, htr, hst]
        refine ⟨by rw [hsm],
          ⟨fun _ => Or.inr ⟨status, rid, none, rfl, Or.inr rfl⟩, fun _ => by rw [hsm]⟩, ?_⟩
        intro s' r' b' hco
        simp at hco
      · have hsm : send_message cfg token transport prompt = (Reply.full b rid, [req]) := by
          simp [send_message, h, htr, hst]
        refine ⟨by rw [hsm], ⟨?_, ?_⟩, ?_⟩
        · intro hemp
          rw [hsm] at hemp
          simp at hemp
        · rintro (hr | ⟨s', r', b', he, hbad⟩)
          · simp at hr
          · injection he with h1 h2 h3
            subst h1; subst h2
            rcases hbad with hb | hb
            · omega
            · rw [← h3] at hb; simp at hb
        · intro s' r' b' hco hlt
          injection hco with h1 h2 h3
          subst h1; subst h2
          injection h3 with h4
          rw [hsm, h4]
    · have hsm : send_message cfg token transport prompt = (Reply.empty, [req]) := by
        simp [send_message, h, htr, hst]
      refine ⟨by rw [hsm],
        ⟨fun _ => Or.inr ⟨status, rid, body, rfl, Or.inl (by omega)⟩, fun _ => by rw [hsm]⟩, ?_⟩
      intro s' r' b' hco hlt
      injection hco with h1 h2 h3
      omega

/-- Witness for C2 at a concrete 200 response. -/
theorem c2_send_message_contract_witness :
    buildRequest cfgAll "tok" "p" = some reqAll ∧
    ((send_message cfgAll "tok" transport200 "p").2 = [reqAll] ∧
      ((send_message cfgAll "tok" transport200 "p").1 = Reply.empty ↔
        (transport200 reqAll = .raised ∨
          ∃ status rid body, transport200 reqAll = .response status rid body ∧
            (400 ≤ status ∨ body = none))) ∧
      (∀ status rid b, transport200 reqAll = .response status rid (some b) → status < 400 →
        (send_message cfgAll "tok" transport200 "p").1 = Reply.full b rid)) :=
  ⟨by decide, c2_send_message_contract cfgAll "tok" "p" transport200 reqAll (by decide)⟩

/-- One attempt is made whenever the request could be assembled. -/
theorem send_message_attempts (cfg : Config) (token prompt : String)
    (transport : HttpRequest → HttpOutcome) (req : HttpRequest)
    (h : buildRequest cfg token prompt = some req) :
    (send_message cfg token transport prompt).2 = [req] := by
  rcases htr : transport req with _ | ⟨status, rid, body⟩
  · simp [send_message, h, htr]
  · by_cases hst : status < 400
    · rcases body with _ | b <;> simp [send_message, h, htr, hst]
    · simp [send_message, h, htr, hst]

/-- Empty initial session state, as created at lines 120-123. -/
def initState : SessionState := ⟨[], none, []⟩

/-- C3: when send_message returns the empty dict, process_message still
appends exactly two entries: the user turn and an assistant turn with an
empty content list and an absent request id. -/
theorem c3_empty_reply_empty_assistant (cfg : Config) (token : String)
    (transport : HttpRequest → HttpOutcome) (db : String → Df)
    (clicked : String → Bool) (st : SessionState) (prompt : String)
    (h : (send_message cfg token transport prompt).1 = Reply.empty) :
    (process_message cfg token transport db clicked st prompt).state.messages =
      st.messages ++ [⟨"user", [.text prompt], none⟩, ⟨"assistant", [], none⟩] ∧
    (process_message cfg token transport db clicked st prompt).state.messages.length =
      st.messages.length + 2 := by
  have hm := process_message_messages cfg token transport db clicked st prompt
  rw [h] at hm
  simp only [Reply.messageContent, Reply.requestId] at hm
  refine ⟨hm, ?_⟩
  rw [hm]
  simp

/-- Witness for C3 at a concrete 500 response. -/
theorem c3_empty_reply_empty_assistant_witness :
    (send_message cfgAll "tok" transport500 "p").1 = Reply.empty ∧
    ((process_message cfgAll "tok" transport500 dbTwoByTwo noClicks initState "p").state.messages =
      initState.messages ++ [⟨"user", [.text "p"], none⟩, ⟨"assistant", [], none⟩] ∧
    (process_message cfgAll "tok" transport500 dbTwoByTwo noClicks initState "p").state.messages.length =
      initState.messages.length + 2) :=
  ⟨by decide,
    c3_empty_reply_empty_assistant cfgAll "tok" transport500 dbTwoByTwo noClicks initState "p"
      (by decide)⟩

/-- C7: the request built for a prompt has exactly the documented body,
semantic-model path, URL and authorization header, and that request is the
one attempt sent. -/
theorem c7_request_shape (cfg : Config) (token prompt : String)
    (transport : HttpRequest → HttpOutcome) (d s g f ho : String)
    (hd : cfg "database" = some d) (hs : cfg "schema" = some s)
    (hg : cfg "stage" = some g) (hf : cfg "file" = some f)
    (hh : cfg "host" = some ho) :
    buildRequest cfg token prompt = some
      ⟨"https://" ++ ho ++ "/api/v2/cortex/analyst/message",
       [⟨"user", [.text prompt], none⟩],
       "@" ++ d ++ "." ++ s ++ "." ++ g ++ "/" ++ f,
       "Snowflake Token=\"" ++ token ++ "\"",
       "application/json"⟩ ∧
    (send_message cfg token transport prompt).2 =
      [⟨"https://" ++ ho ++ "/api/v2/cortex/analyst/message",
        [⟨"user", [.text prompt], none⟩],
        "@" ++ d ++ "." ++ s ++ "." ++ g ++ "/" ++ f,
        "Snowflake Token=\"" ++ token ++ "\"",
        "application/json"⟩] := by
  have hb : buildRequest cfg token prompt = some
      ⟨"https://" ++ ho ++ "/api/v2/cortex/analyst/message",
       [⟨"user", [.text prompt], none⟩],
       "@" ++ d ++ "." ++ s ++ "." ++ g ++ "/" ++ f,
       "Snowflake Token=\"" ++ token ++ "\"",
       "application/json"⟩ := by
    unfold buildRequest
    rw [hd, hs, hg, hf, hh]
  exact ⟨hb, send_message_attempts cfg token prompt transport _ hb⟩

/-- Concrete config with distinct values for the C7 witness. -/
def cfgDistinct : Config := fun k =>
  if k = "database" then some "DB"
  else if k = "schema" then some "SC"
  else if k = "stage" then some "ST"
  else if k = "file" then some "model.yaml"
  else if k = "host" then some "example.com"
  else some "x"

/-- Witness for C7 at a concrete config. -/
theorem c7_request_shape_witness :
    cfgDistinct "database" = some "DB" ∧ cfgDistinct "host" = some "example.com" ∧
    buildRequest cfgDistinct "tok" "What is total revenue?" = some
      ⟨"https://" ++ "example.com" ++ "/api/v2/cortex/analyst/message",
       [⟨"user", [.text "What is total revenue?"], none⟩],
       "@" ++ "DB" ++ "." ++ "SC" ++ "." ++ "ST" ++ "/" ++ "model.yaml",
       "Snowflake Token=\"" ++ "tok" ++ "\"",
       "application/json"⟩ :=
  ⟨by decide, by decide,
    (c7_request_shape cfgDistinct "tok" "What is total revenue?" transport200
      "DB" "SC" "ST" "model.yaml" "example.com"
      (by decide) (by decide) (by decide) (by decide) (by decide)).1⟩

/-- C4: rendering an SqlResult block whose result has more than one row
shows exactly three views, the raw table and the two charts, the charts
indexed by the first column when there is more than one column; with at
most one row only the raw table is shown. -/
theorem c4_sql_result_views (db : String → Df) (clicked : String → Bool)
    (idx logical : Nat) (active : Option String) (stmt : String) :
    (1 < (db stmt).index.length →
      (display_block db clicked idx logical active (.sql stmt)).1 =
        [.sqlCode stmt, .dataframeView (db stmt), .lineChartView (db stmt).chart_df,
          .barChartView (db stmt).chart_df] ∧
      (1 < (db stmt).cols.length →
        (db stmt).chart_df.index = (db stmt).rows.map (fun r => r.headD "") ∧
        (db stmt).chart_df.cols = (db stmt).cols.drop 1)) ∧
    ((db stmt).index.length ≤ 1 →
      (display_block db clicked idx logical active (.sql stmt)).1 =
        [.sqlCode stmt, .dataframeView (db stmt)]) := by
  constructor
  · intro h1
    constructor
    · simp [display_block, h1]
    · intro h2
      simp [Df.chart_df, h2, Df.set_index_first]
  · intro h1
    have h2 : ¬ 1 < (db stmt).index.length := by omega
    simp [display_block, h2]

/-- Witness for C4 at a two-row, two-column result. -/
theorem c4_sql_result_views_witness :
    1 < (dbTwoByTwo "q").index.length ∧
    (display_block dbTwoByTwo noClicks 1 1 none (.sql "q")).1 =
      [.sqlCode "q", .dataframeView (dbTwoByTwo "q"), .lineChartView (dbTwoByTwo "q").chart_df,
        .barChartView (dbTwoByTwo "q").chart_df] ∧
    (dbTwoByTwo "q").chart_df.index = ["x", "y"] :=
  ⟨by decide,
    ((c4_sql_result_views dbTwoByTwo noClicks 1 1 none "q").1 (by decide)).1,
    by decide⟩

/-- Config missing only the host key. -/
def cfgNoHost : Config := fun k => if k = "host" then none else some "v"

/-- Config missing only the user key. -/
def cfgNoUser : Config := fun k => if k = "user" then none else some "v"

/-- C5 counterexample: host is one of the documented config keys, yet with
host absent (and everything else present) startup does not halt; the
script reaches rendering and every send simply degrades later. -/
theorem c5_counterexample :
    "host" ∈ allConfigKeys ∧ cfgNoHost "host" = none ∧
    (startup (some cfgNoHost) (.success "tok")).isHalted = false := by decide

/-- C5 amended: the process halts with a user-visible error before
rendering anything else when the snowflake section itself is missing, or
when any of the seven keys read at connection time (user, password,
account, warehouse, database, schema, role) is missing; the host, stage
and file keys are not checked at startup. -/
theorem c5_missing_connect_key_halts (cfg : Config) (conn : ConnectResult) :
    (∀ c : ConnectResult, startup none c = .halted [.errorShown "config_missing"]) ∧
    (∀ k, k ∈ connectKeys → cfg k = none →
      startup (some cfg) conn = .halted [.errorShown "connect_failed"]) := by
  refine ⟨fun c => rfl, ?_⟩
  intro k hk hnone
  have hall : connectKeys.all (fun k2 => (cfg k2).isSome) = false := by
    cases hb : connectKeys.all (fun k2 => (cfg k2).isSome)
    · rfl
    · have := List.all_eq_true.mp hb k hk
      rw [hnone] at this
      simp at this
  simp [startup, hall]

/-- Witness for the amended C5 at a config missing the user key. -/
theorem c5_missing_connect_key_halts_witness :
    ("user" ∈ connectKeys ∧ cfgNoUser "user" = none) ∧
    startup (some cfgNoUser) (.success "tok") = .halted [.errorShown "connect_failed"] :=
  ⟨⟨by decide, by decide⟩,
    (c5_missing_connect_key_halts cfgNoUser (.success "tok")).2 "user" (by decide) (by decide)⟩

/-! Helper lemmas about suggestion buttons and the active-suggestion slot. -/

theorem applyClicks_cons (clicked : String → Bool) (active : Option String)
    (b : SuggButton) (rest : List SuggButton) :
    applyClicks clicked active (b :: rest) =
      applyClicks clicked (if clicked b.key then some b.label else active) rest := rfl

theorem suggButtonsFrom_mem (idx logical : Nat) :
    ∀ (ss : List String) (j : Nat) (bt : SuggButton), bt ∈ suggButtonsFrom idx logical j ss →
      bt.turn = logical ∧ j ≤ bt.sidx ∧ bt.key = suggKey idx bt.sidx := by
  intro ss
  induction ss with
  | nil => intro j bt h; simp [suggButtonsFrom] at h
  | cons lab rest ih =>
    intro j bt h
    simp only [suggButtonsFrom, List.mem_cons] at h
    rcases h with h1 | h1
    · subst h1; exact ⟨rfl, Nat.le_refl j, rfl⟩
    · obtain ⟨ht, hj, hk⟩ := ih (j + 1) bt h1
      exact ⟨ht, by omega, hk⟩

theorem suggButtonsFrom_labels (idx logical : Nat) :
    ∀ (ss : List String) (j : Nat), (suggButtonsFrom idx logical j ss).map (·.label) = ss := by
  intro ss
  induction ss with
  | nil => intro j; rfl
  | cons lab rest ih => intro j; simp [suggButtonsFrom, ih (j + 1)]

theorem applyClicks_no_click (clicked : String → Bool) :
    ∀ (btns : List SuggButton) (active : Option String),
      (∀ bt ∈ btns, clicked bt.key = false) →
      applyClicks clicked active btns = active := by
  intro btns
  induction btns with
  | nil => intro active _; rfl
  | cons b rest ih =>
    intro active h
    rw [applyClicks_cons, h b (List.mem_cons_self b rest)]
    exact ih active (fun bt hbt => h bt (List.mem_cons_of_mem b hbt))

theorem applyClicks_set_at (clicked : String → Bool) (idx logical n : Nat) (S : String)
    (hn : clicked (suggKey idx n) = true)
    (hother : ∀ m, m ≠ n → clicked (suggKey idx m) = false) :
    ∀ (ss1 : List String) (j : Nat) (ss2 : List String) (active : Option String),
      j + ss1.length = n →
      applyClicks clicked active (suggButtonsFrom idx logical j (ss1 ++ S :: ss2)) = some S := by
  intro ss1
  induction ss1 with
  | nil =>
    intro j ss2 active hj
    simp only [List.length_nil, Nat.add_zero] at hj
    subst hj
    simp only [List.nil_append, suggButtonsFrom]
    rw [applyClicks_cons]
    simp only [hn, if_true]
    apply applyClicks_no_click
    intro bt hbt
    obtain ⟨_, hle, hk⟩ := suggButtonsFrom_mem idx logical ss2 (j + 1) bt hbt
    rw [hk]
    exact hother bt.sidx (by omega)
  | cons lab rest ih =>
    intro j ss2 active hj
    simp only [List.cons_append, suggButtonsFrom]
    rw [applyClicks_cons]
    have hjn : j ≠ n := by simp only [List.length_cons] at hj; omega
    rw [hother j hjn]
    exact ih (j + 1) ss2 active (by simp only [List.length_cons] at hj; omega)

theorem display_block_active (db : String → Df) (clicked : String → Bool)
    (idx logical : Nat) (active : Option String) (b : ContentBlock)
    (h : ∀ j, clicked (suggKey idx j) = false) :
    (display_block db clicked idx logical active b).2 = active := by
  cases b with
  | text s => rfl
  | sql stmt => rfl
  | other t => rfl
  | suggestions ss =>
    simp only [display_block]
    apply applyClicks_no_click
    intro bt hbt
    obtain ⟨_, _, hk⟩ := suggButtonsFrom_mem idx logical ss 0 bt hbt
    rw [hk]
    exact h bt.sidx

theorem display_blocks_active (db : String → Df) (clicked : String → Bool)
    (idx logical : Nat) :
    ∀ (content : List ContentBlock) (active : Option String),
      (∀ j, clicked (suggKey idx j) = false) →
      (display_blocks db clicked idx logical content active).2 = active := by
  intro content
  induction content with
  | nil => intro active _; rfl
  | cons b rest ih =>
    intro active h
    simp only [display_blocks]
    rw [ih _ h, display_block_active db clicked idx logical active b h]

theorem display_content_active (db : String → Df) (clicked : String → Bool)
    (content : List ContentBlock) (request_id : Option String)
    (message_index : Option Nat) (curLen : Nat) (active : Option String)
    (h : ∀ j, clicked (suggKey (effective_index message_index curLen) j) = false) :
    (display_content db clicked content request_id message_index curLen active).2 = active := by
  simp only [display_content]
  exact display_blocks_active db clicked _ _ content active h

/-- Click predicate of a rerun in which exactly the control with the given
widget key was activated. -/
def clickOn (key : String) : String → Bool := fun k => k == key

theorem effective_index_none (L : Nat) : effective_index none L = L := rfl

theorem effective_index_zero (L : Nat) : effective_index (some 0) L = L := rfl

theorem effective_index_succ (n L : Nat) : effective_index (some (n + 1)) L = n + 1 := rfl

/-- A two-turn transcript whose assistant turn offers the suggestions
ss1 ++ S :: ss2, with no suggestion pending. -/
def suggState (p S : String) (ss1 ss2 : List String) (rid : Option String) : SessionState :=
  ⟨[⟨"user", [.text p], none⟩, ⟨"assistant", [.suggestions (ss1 ++ S :: ss2)], rid⟩], none, []⟩

/-- Rendering the two-turn transcript with the click on suggestion S stores
S in the active-suggestion slot. -/
theorem transcript_suggState (db : String → Df) (p S : String) (ss1 ss2 : List String)
    (rid : Option String) :
    (transcript_go db (clickOn (suggKey 1 ss1.length)) 2 0 (suggState p S ss1 ss2 rid).messages
      none).2 = some S := by
  have hclick0 : ∀ j, clickOn (suggKey 1 ss1.length) (suggKey 2 j) = false := by
    intro j
    simp only [clickOn, beq_eq_false_iff_ne, ne_eq]
    exact suggKey_ne_left (by omega)
  simp only [suggState, transcript_go]
  rw [display_content_active db _ [.text p] none (some 0) 2 none hclick0]
  simp only [display_content, display_blocks, display_block, effective_index_succ]
  exact applyClicks_set_at _ 1 _ ss1.length S
    (by simp [clickOn])
    (fun m hm => by
      simp only [clickOn, beq_eq_false_iff_ne, ne_eq]
      exact suggKey_ne_right hm)
    ss1 0 ss2 none (by omega)

/-- A truthy slot after the transcript render is consumed by exactly one
process_message call and then cleared. -/
theorem script_run_consume (cfg : Config) (token : String)
    (transport : HttpRequest → HttpOutcome) (db : String → Df)
    (clicked : String → Bool) (st : SessionState) (S : String)
    (htr : (transcript_go db clicked st.messages.length 0 st.messages
      st.active_suggestion).2 = some S)
    (hS : S ≠ "") :
    script_run cfg token transport db clicked st none =
      ⟨{ (process_message cfg token transport db clicked
            { st with active_suggestion := some S } S).state with active_suggestion := none },
        (transcript_go db clicked st.messages.length 0 st.messages st.active_suggestion).1 ++
          (process_message cfg token transport db clicked
            { st with active_suggestion := some S } S).events,
        [S],
        (process_message cfg token transport db clicked
          { st with active_suggestion := some S } S).requests⟩ := by
  simp [script_run, chat_phase, suggestion_phase, htr, hS]

/-- An empty-string slot after the transcript render is not consumed: the
falsy check skips the handler and nothing is processed or cleared. -/
theorem script_run_stuck (cfg : Config) (token : String)
    (transport : HttpRequest → HttpOutcome) (db : String → Df)
    (clicked : String → Bool) (st : SessionState)
    (htr : (transcript_go db clicked st.messages.length 0 st.messages
      st.active_suggestion).2 = some "") :
    script_run cfg token transport db clicked st none =
      ⟨{ st with active_suggestion := some "" },
        (transcript_go db clicked st.messages.length 0 st.messages st.active_suggestion).1,
        [], []⟩ := by
  simp [script_run, chat_phase, suggestion_phase, htr]

/-- Without clicks the transcript render leaves the slot unchanged. -/
theorem transcript_go_no_click (db : String → Df) (curLen : Nat) :
    ∀ (msgs : List Turn) (i : Nat) (active : Option String),
      (transcript_go db noClicks curLen i msgs active).2 = active := by
  intro msgs
  induction msgs with
  | nil => intro i active; rfl
  | cons m rest ih =>
    intro i active
    simp only [transcript_go]
    rw [ih (i + 1) _, display_content_active db noClicks m.content m.request_id (some i) curLen
      active (fun j => rfl)]

/-- Two-turn state whose assistant turn offers one empty-string suggestion. -/
def stEmptySugg : SessionState :=
  ⟨[⟨"user", [.text "q"], none⟩, ⟨"assistant", [.suggestions [""]], none⟩], none, []⟩

/-- State with an empty-string suggestion already stored in the slot. -/
def stStuck : SessionState := ⟨[], some "", []⟩

/-- C6 counterexample: clicking the suggestion whose text is the empty
string leads to no process call and the slot does not revert to none. -/
theorem c6_counterexample :
    (script_run cfgAll "tok" transport500 dbTwoByTwo (clickOn "1_0") stEmptySugg
      none).processed = [] ∧
    (script_run cfgAll "tok" transport500 dbTwoByTwo (clickOn "1_0") stEmptySugg
      none).state.active_suggestion = some "" := by decide

/-- C6 amended: for a suggestion with non-empty text S, selecting its
control stores S in the slot during the transcript render, leads to exactly
one process call with prompt S in the same rerun, and the slot is cleared
to none afterwards, the log having grown by the two turns of that call. -/
theorem c6_suggestion_consumed (p S : String) (ss1 ss2 : List String) (rid : Option String)
    (cfg : Config) (token : String) (transport : HttpRequest → HttpOutcome)
    (db : String → Df) (hS : S ≠ "") :
    (transcript_go db (clickOn (suggKey 1 ss1.length)) 2 0
      (suggState p S ss1 ss2 rid).messages none).2 = some S ∧
    (script_run cfg token transport db (clickOn (suggKey 1 ss1.length))
      (suggState p S ss1 ss2 rid) none).processed = [S] ∧
    (script_run cfg token transport db (clickOn (suggKey 1 ss1.length))
      (suggState p S ss1 ss2 rid) none).state.active_suggestion = none ∧
    (script_run cfg token transport db (clickOn (suggKey 1 ss1.length))
      (suggState p S ss1 ss2 rid) none).state.messages.length = 4 := by
  have htr := transcript_suggState db p S ss1 ss2 rid
  have hrun := script_run_consume cfg token transport db (clickOn (suggKey 1 ss1.length))
    (suggState p S ss1 ss2 rid) S htr hS
  refine ⟨htr, ?_, ?_, ?_⟩
  · rw [hrun]
  · rw [hrun]
  · rw [hrun]
    show (process_message cfg token transport db (clickOn (suggKey 1 ss1.length))
      { suggState p S ss1 ss2 rid with active_suggestion := some S } S).state.messages.length = 4
    rw [process_message_messages]
    simp [suggState]

/-- Witness for the amended C6 at concrete inputs. -/
theorem c6_suggestion_consumed_witness :
    ("b" ≠ "") ∧
    ((transcript_go dbTwoByTwo (clickOn (suggKey 1 (List.length ["a"]))) 2 0
      (suggState "q" "b" ["a"] [] none).messages none).2 = some "b" ∧
    (script_run cfgAll "tok" transport500 dbTwoByTwo (clickOn (suggKey 1 (List.length ["a"])))
      (suggState "q" "b" ["a"] [] none) none).processed = ["b"] ∧
    (script_run cfgAll "tok" transport500 dbTwoByTwo (clickOn (suggKey 1 (List.length ["a"])))
      (suggState "q" "b" ["a"] [] none) none).state.active_suggestion = none ∧
    (script_run cfgAll "tok" transport500 dbTwoByTwo (clickOn (suggKey 1 (List.length ["a"])))
      (suggState "q" "b" ["a"] [] none) none).state.messages.length = 4) :=
  ⟨by decide,
    c6_suggestion_consumed "q" "b" ["a"] [] none cfgAll "tok" transport500 dbTwoByTwo
      (by decide)⟩

/-- C10: selecting the empty-string suggestion stores it in the slot, but
the truthiness-gated consumption never fires: no process call is made for
it, the slot keeps the empty string after the rerun, and later clickless
reruns neither process nor clear it. -/
theorem c10_empty_suggestion_stuck (p : String) (ss1 ss2 : List String) (rid : Option String)
    (cfg : Config) (token : String) (transport : HttpRequest → HttpOutcome)
    (db : String → Df) :
    (transcript_go db (clickOn (suggKey 1 ss1.length)) 2 0
      (suggState p "" ss1 ss2 rid).messages none).2 = some "" ∧
    (script_run cfg token transport db (clickOn (suggKey 1 ss1.length))
      (suggState p "" ss1 ss2 rid) none).processed = [] ∧
    (script_run cfg token transport db (clickOn (suggKey 1 ss1.length))
      (suggState p "" ss1 ss2 rid) none).state.active_suggestion = some "" ∧
    (∀ st2 : SessionState, st2.active_suggestion = some "" →
      (script_run cfg token transport db noClicks st2 none).processed = [] ∧
      (script_run cfg token transport db noClicks st2 none).state.active_suggestion = some "") := by
  have htr := transcript_suggState db p "" ss1 ss2 rid
  have hrun := script_run_stuck cfg token transport db (clickOn (suggKey 1 ss1.length))
    (suggState p "" ss1 ss2 rid) htr
  refine ⟨htr, by rw [hrun], by rw [hrun], ?_⟩
  intro st2 h2
  have htr2 : (transcript_go db noClicks st2.messages.length 0 st2.messages
      st2.active_suggestion).2 = some "" := by
    rw [transcript_go_no_click, h2]
  have hrun2 := script_run_stuck cfg token transport db noClicks st2 htr2
  rw [hrun2]
  exact ⟨rfl, rfl⟩

/-- Witness for C10 at concrete inputs, including a later clickless rerun. -/
theorem c10_empty_suggestion_stuck_witness :
    ((script_run cfgAll "tok" transport500 dbTwoByTwo (clickOn (suggKey 1 (List.length ["a"])))
      (suggState "q" "" ["a"] [] none) none).processed = [] ∧
    (script_run cfgAll "tok" transport500 dbTwoByTwo (clickOn (suggKey 1 (List.length ["a"])))
      (suggState "q" "" ["a"] [] none) none).state.active_suggestion = some "") ∧
    (stStuck.active_suggestion = some "" ∧
    (script_run cfgAll "tok" transport500 dbTwoByTwo noClicks stStuck none).processed = [] ∧
    (script_run cfgAll "tok" transport500 dbTwoByTwo noClicks stStuck
      none).state.active_suggestion = some "") := by
  have h := c10_empty_suggestion_stuck "q" ["a"] [] none cfgAll "tok" transport500 dbTwoByTwo
  exact ⟨⟨h.2.1, h.2.2.1⟩, rfl, h.2.2.2 stStuck rfl⟩

/-! Round-trip lemmas: what a render pass exhibits of a turn. -/

theorem eventsToBlocks_append : ∀ (a b : List RenderEvent),
    eventsToBlocks (a ++ b) = eventsToBlocks a ++ eventsToBlocks b := by
  intro a
  induction a with
  | nil => intro b; rfl
  | cons e rest ih => intro b; cases e <;> simp [eventsToBlocks, ih]

theorem eventButtons_append : ∀ (a b : List RenderEvent),
    eventButtons (a ++ b) = eventButtons a ++ eventButtons b := by
  intro a
  induction a with
  | nil => intro b; rfl
  | cons e rest ih => intro b; cases e <;> simp [eventButtons, ih]

theorem display_block_blocks (db : String → Df) (clicked : String → Bool)
    (idx logical : Nat) (active : Option String) (b : ContentBlock)
    (hb : b.known = true) :
    eventsToBlocks (display_block db clicked idx logical active b).1 = [b] := by
  cases b with
  | text s => rfl
  | suggestions ss => simp [display_block, eventsToBlocks, suggButtonsFrom_labels]
  | sql stmt =>
    simp only [display_block]
    by_cases h : 1 < (db stmt).index.length <;> simp [h, eventsToBlocks]
  | other t => simp [ContentBlock.known] at hb

theorem display_block_no_rid (db : String → Df) (clicked : String → Bool)
    (idx logical : Nat) (active : Option String) (b : ContentBlock) :
    ∀ e ∈ (display_block db clicked idx logical active b).1, ridOfEvent e = none := by
  cases b with
  | text s => intro e he; simp [display_block] at he; subst he; rfl
  | suggestions ss => intro e he; simp [display_block] at he; subst he; rfl
  | other t => intro e he; simp [display_block] at he
  | sql stmt =>
    intro e he
    simp only [display_block] at he
    by_cases h : 1 < (db stmt).index.length
    · simp [h] at he
      rcases he with rfl | rfl | rfl | rfl <;> rfl
    · simp [h] at he
      rcases he with rfl | rfl <;> rfl

theorem display_blocks_blocks (db : String → Df) (clicked : String → Bool)
    (idx logical : Nat) :
    ∀ (content : List ContentBlock) (active : Option String),
      (∀ b ∈ content, b.known = true) →
      eventsToBlocks (display_blocks db clicked idx logical content active).1 = content := by
  intro content
  induction content with
  | nil => intro active _; rfl
  | cons b rest ih =>
    intro active h
    simp only [display_blocks]
    rw [eventsToBlocks_append,
      display_block_blocks db clicked idx logical active b (h b (List.mem_cons_self b rest)),
      ih _ (fun b2 hb2 => h b2 (List.mem_cons_of_mem b hb2))]
    rfl

theorem display_blocks_no_rid (db : String → Df) (clicked : String → Bool)
    (idx logical : Nat) :
    ∀ (content : List ContentBlock) (active : Option String) (e : RenderEvent),
      e ∈ (display_blocks db clicked idx logical content active).1 → ridOfEvent e = none := by
  intro content
  induction content with
  | nil => intro active e he; simp [display_blocks] at he
  | cons b rest ih =>
    intro active e he
    simp only [display_blocks, List.mem_append] at he
    rcases he with he | he
    · exact display_block_no_rid db clicked idx logical active b e he
    · exact ih _ e he

/-- Assistant turn with a content block of unrecognized tag and an
empty-string request id. -/
def badTurn : Turn := ⟨"assistant", [.other "chart"], some ""⟩

/-- Turn with one block of each recognized tag and a normal request id. -/
def goodTurn : Turn :=
  ⟨"assistant", [.text "Revenue is $5M", .suggestions ["follow up"], .sql "select 1"],
   some "abc-123"⟩

/-- C8 counterexample: a turn holding a block whose tag has no rendering
branch, with an empty-string request id, renders neither the block nor the
id: re-rendering does not reproduce what was appended. -/
theorem c8_counterexample :
    badTurn.request_id = some "" ∧ badTurn.content = [.other "chart"] ∧
    eventsToBlocks (display_content dbTwoByTwo noClicks badTurn.content badTurn.request_id
      (some 1) 2 none).1 ≠ badTurn.content ∧
    eventsRequestId (display_content dbTwoByTwo noClicks badTurn.content badTurn.request_id
      (some 1) 2 none).1 ≠ badTurn.request_id := by decide

/-- C8 amended: for a turn whose content blocks all carry a recognized tag
(text, suggestions or sql) and whose request id is not the empty string,
re-rendering the turn reproduces exactly its block sequence in order with
the same block data, and shows exactly its request id; blocks of
unrecognized tag are silently skipped and an empty-string id shows no
panel. -/
theorem c8_render_round_trip (db : String → Df) (clicked : String → Bool)
    (t : Turn) (i curLen : Nat) (active : Option String)
    (hknown : ∀ b ∈ t.content, b.known = true)
    (hrid : t.request_id ≠ some "") :
    eventsToBlocks (display_content db clicked t.content t.request_id
      (some i) curLen active).1 = t.content ∧
    eventsRequestId (display_content db clicked t.content t.request_id
      (some i) curLen active).1 = t.request_id := by
  simp only [display_content]
  constructor
  · rw [eventsToBlocks_append,
      display_blocks_blocks db clicked _ _ t.content active hknown]
    rcases hr : t.request_id with _ | r
    · rfl
    · have hne : r ≠ "" := fun he => hrid (by rw [hr, he])
      simp [hne, eventsToBlocks]
  · rcases hr : t.request_id with _ | r
    · simp only [eventsRequestId, List.nil_append]
      rw [List.findSome?_eq_none_iff.mpr]
      intro e he
      exact display_blocks_no_rid db clicked _ _ t.content active e he
    · have hne : r ≠ "" := fun he => hrid (by rw [hr, he])
      simp only [hne, if_true, ne_eq, ite_not]
      simp [eventsRequestId, ridOfEvent, List.findSome?_cons]

/-- Witness for the amended C8 at a turn holding all three block kinds. -/
theorem c8_render_round_trip_witness :
    goodTurn.request_id ≠ some "" ∧
    eventsToBlocks (display_content dbTwoByTwo noClicks goodTurn.content goodTurn.request_id
      (some 1) 2 none).1 = goodTurn.content ∧
    eventsRequestId (display_content dbTwoByTwo noClicks goodTurn.content goodTurn.request_id
      (some 1) 2 none).1 = goodTurn.request_id := by
  have h := c8_render_round_trip dbTwoByTwo noClicks goodTurn 1 2 none
    (by decide) (by decide)
  exact ⟨by decide, h.1, h.2⟩

/-! Locating suggestion buttons inside a rerun, for key distinctness. -/

/-- The index the f-string key actually uses for the turn at position t of
a transcript of length L: the or-fallback sends position 0 to L. -/
def remap (t L : Nat) : Nat := if t = 0 then L else t

theorem effective_index_remap (t L : Nat) : effective_index (some t) L = remap t L := by
  cases t with
  | zero => rfl
  | succ n => simp [effective_index, remap]

theorem remap_ne_zero {t : Nat} (L : Nat) (h : t ≠ 0) : remap t L = t := by
  simp [remap, h]

theorem remap_zero (L : Nat) : remap 0 L = L := by
  simp [remap]

theorem display_block_buttons (db : String → Df) (clicked : String → Bool)
    (idx logical : Nat) (active : Option String) (b : ContentBlock) (bt : SuggButton)
    (h : bt ∈ eventButtons (display_block db clicked idx logical active b).1) :
    bt.turn = logical ∧ bt.key = suggKey idx bt.sidx := by
  cases b with
  | text s => simp [display_block, eventButtons] at h
  | other t => simp [display_block, eventButtons] at h
  | suggestions ss =>
    simp only [display_block, eventButtons, List.append_nil] at h
    obtain ⟨ht, _, hk⟩ := suggButtonsFrom_mem idx logical ss 0 bt h
    exact ⟨ht, hk⟩
  | sql stmt =>
    simp only [display_block] at h
    by_cases hlen : 1 < (db stmt).index.length <;> simp [hlen, eventButtons] at h

theorem display_blocks_buttons (db : String → Df) (clicked : String → Bool)
    (idx logical : Nat) :
    ∀ (content : List ContentBlock) (active : Option String) (bt : SuggButton),
      bt ∈ eventButtons (display_blocks db clicked idx logical content active).1 →
      bt.turn = logical ∧ bt.key = suggKey idx bt.sidx := by
  intro content
  induction content with
  | nil => intro active bt h; simp [display_blocks, eventButtons] at h
  | cons b rest ih =>
    intro active bt h
    simp only [display_blocks] at h
    rw [eventButtons_append] at h
    rcases List.mem_append.mp h with h1 | h1
    · exact display_block_buttons db clicked idx logical active b bt h1
    · exact ih _ bt h1

theorem display_content_buttons (db : String → Df) (clicked : String → Bool)
    (content : List ContentBlock) (request_id : Option String)
    (message_index : Option Nat) (curLen : Nat) (active : Option String) (bt : SuggButton)
    (h : bt ∈ eventButtons (display_content db clicked content request_id
      message_index curLen active).1) :
    bt.turn = logical_index message_index curLen ∧
    bt.key = suggKey (effective_index message_index curLen) bt.sidx := by
  simp only [display_content] at h
  rw [eventButtons_append] at h
  rcases List.mem_append.mp h with h1 | h1
  · exfalso
    rcases request_id with _ | r
    · simp [eventButtons] at h1
    · by_cases hr : r = "" <;> simp [hr, eventButtons] at h1
  · exact display_blocks_buttons db clicked _ _ content active bt h1

theorem process_message_buttons (cfg : Config) (token : String)
    (transport : HttpRequest → HttpOutcome) (db : String → Df)
    (clicked : String → Bool) (st : SessionState) (prompt : String) (bt : SuggButton)
    (h : bt ∈ eventButtons (process_message cfg token transport db clicked st prompt).events) :
    bt.turn = st.messages.length + 1 ∧
    bt.key = suggKey (st.messages.length + 1) bt.sidx := by
  simp only [process_message, eventButtons] at h
  have h2 := display_content_buttons db clicked
    (send_message cfg token transport prompt).1.messageContent
    (send_message cfg token transport prompt).1.requestId none
    (st.messages ++ [Turn.mk "user" [ContentBlock.text prompt] none]).length
    st.active_suggestion bt h
  simpa [logical_index, effective_index] using h2

theorem chat_phase_buttons (cfg : Config) (token : String)
    (transport : HttpRequest → HttpOutcome) (db : String → Df)
    (clicked : String → Bool) (st : SessionState) (chat : Option String) (bt : SuggButton)
    (h : bt ∈ eventButtons (chat_phase cfg token transport db clicked st chat).events) :
    bt.turn = st.messages.length + 1 ∧
    bt.key = suggKey (st.messages.length + 1) bt.sidx := by
  rcases chat with _ | p
  · simp [chat_phase, eventButtons] at h
  · exact process_message_buttons cfg token transport db clicked st p bt h

theorem suggestion_phase_buttons (cfg : Config) (token : String)
    (transport : HttpRequest → HttpOutcome) (db : String → Df)
    (clicked : String → Bool) (st : SessionState) (bt : SuggButton)
    (h : bt ∈ eventButtons (suggestion_phase cfg token transport db clicked st).events) :
    bt.turn = st.messages.length + 1 ∧
    bt.key = suggKey (st.messages.length + 1) bt.sidx := by
  rcases hact : st.active_suggestion with _ | s
  · simp [suggestion_phase, hact, eventButtons] at h
  · by_cases hs : s = ""
    · simp [suggestion_phase, hact, hs, eventButtons] at h
    · simp only [suggestion_phase, hact, hs, ne_eq, not_false_eq_true, if_true] at h
      exact process_message_buttons cfg token transport db clicked st s bt h

theorem chat_phase_state_len (cfg : Config) (token : String)
    (transport : HttpRequest → HttpOutcome) (db : String → Df)
    (clicked : String → Bool) (st : SessionState) (chat : Option String) :
    (chat_phase cfg token transport db clicked st chat).state.messages.length =
      st.messages.length ∨
    (chat_phase cfg token transport db clicked st chat).state.messages.length =
      st.messages.length + 2 := by
  rcases chat with _ | p
  · exact Or.inl rfl
  · right
    simp only [chat_phase]
    rw [process_message_messages]
    simp

theorem transcript_go_buttons (db : String → Df) (clicked : String → Bool) (curLen : Nat) :
    ∀ (msgs : List Turn) (i : Nat) (active : Option String) (bt : SuggButton),
      bt ∈ eventButtons (transcript_go db clicked curLen i msgs active).1 →
      i ≤ bt.turn ∧ bt.turn < i + msgs.length ∧
      bt.key = suggKey (effective_index (some bt.turn) curLen) bt.sidx := by
  intro msgs
  induction msgs with
  | nil => intro i active bt h; simp [transcript_go, eventButtons] at h
  | cons m rest ih =>
    intro i active bt h
    simp only [transcript_go] at h
    rw [eventButtons_append] at h
    rcases List.mem_append.mp h with h1 | h1
    · obtain ⟨ht, hk⟩ := display_content_buttons db clicked m.content m.request_id
        (some i) curLen active bt h1
      simp only [logical_index, Option.getD_some] at ht
      refine ⟨by omega, by simp [ht], ?_⟩
      rw [ht]
      exact hk
    · obtain ⟨h2, h3, h4⟩ := ih (i + 1) _ bt h1
      exact ⟨by omega, by simp only [List.length_cons]; omega, h4⟩

/-- Every suggestion button rendered during a rerun carries the key built
from the remapped index of its logical turn, and that turn is either a
transcript position or the position of a live assistant turn. -/
theorem script_run_buttons (cfg : Config) (token : String)
    (transport : HttpRequest → HttpOutcome) (db : String → Df)
    (clicked : String → Bool) (st : SessionState) (chat : Option String) (bt : SuggButton)
    (h : bt ∈ eventButtons (script_run cfg token transport db clicked st chat).events) :
    bt.key = suggKey (remap bt.turn st.messages.length) bt.sidx ∧
    (bt.turn < st.messages.length ∨ bt.turn = st.messages.length + 1 ∨
      bt.turn = st.messages.length + 3) := by
  simp only [script_run] at h
  rw [eventButtons_append, eventButtons_append] at h
  rcases List.mem_append.mp h with h12 | h3
  · rcases List.mem_append.mp h12 with h1 | h2
    · obtain ⟨hle, hlt, hk⟩ := transcript_go_buttons db clicked st.messages.length
        st.messages 0 st.active_suggestion bt h1
      rw [effective_index_remap] at hk
      exact ⟨hk, Or.inl (by omega)⟩
    · obtain ⟨ht, hk⟩ := chat_phase_buttons cfg token transport db clicked _ chat bt h2
      dsimp only at ht hk
      refine ⟨?_, Or.inr (Or.inl ht)⟩
      rw [hk, ht, remap_ne_zero _ (by omega)]
  · obtain ⟨ht, hk⟩ := suggestion_phase_buttons cfg token transport db clicked _ bt h3
    rcases chat with _ | p
    · dsimp only [chat_phase] at ht hk
      refine ⟨?_, Or.inr (Or.inl ht)⟩
      rw [hk, ht, remap_ne_zero _ (by omega)]
    · dsimp only [chat_phase] at ht hk
      rw [process_message_messages] at ht hk
      simp only [List.length_append, List.length_cons, List.length_nil] at ht hk
      refine ⟨?_, Or.inr (Or.inr (by omega))⟩
      rw [hk, ht, remap_ne_zero _ (by omega)]

/-- C9: within one rerun, suggestion controls belonging to distinct
(turn index, suggestion index) pairs always receive distinct widget keys,
the turn at transcript position 0 included. -/
theorem c9_distinct_widget_keys (cfg : Config) (token : String)
    (transport : HttpRequest → HttpOutcome) (db : String → Df)
    (clicked : String → Bool) (st : SessionState) (chat : Option String)
    (bt1 bt2 : SuggButton)
    (h1 : bt1 ∈ eventButtons (script_run cfg token transport db clicked st chat).events)
    (h2 : bt2 ∈ eventButtons (script_run cfg token transport db clicked st chat).events)
    (hne : (bt1.turn, bt1.sidx) ≠ (bt2.turn, bt2.sidx)) :
    bt1.key ≠ bt2.key := by
  obtain ⟨hk1, hr1⟩ := script_run_buttons cfg token transport db clicked st chat bt1 h1
  obtain ⟨hk2, hr2⟩ := script_run_buttons cfg token transport db clicked st chat bt2 h2
  rw [hk1, hk2]
  intro he
  obtain ⟨hrm, hs⟩ := suggKey_inj he
  apply hne
  have hturn : bt1.turn = bt2.turn := by
    by_cases hz1 : bt1.turn = 0 <;> by_cases hz2 : bt2.turn = 0
    · rw [hz1, hz2]
    · rw [hz1, remap_zero, remap_ne_zero _ hz2] at hrm
      rcases hr2 with hx | hx | hx <;> omega
    · rw [hz2, remap_zero, remap_ne_zero _ hz1] at hrm
      rcases hr1 with hx | hx | hx <;> omega
    · rw [remap_ne_zero _ hz1, remap_ne_zero _ hz2] at hrm
      exact hrm
  rw [hturn, hs]

/-- Witness for C9: two controls of one rerun with distinct pairs have
distinct keys. -/
theorem c9_distinct_widget_keys_witness :
    (⟨1, 0, "1_0", "a"⟩ : SuggButton) ∈ eventButtons (script_run cfgAll "tok" transport500
      dbTwoByTwo noClicks (suggState "q" "a" [] ["b"] none) none).events ∧
    (⟨1, 1, "1_1", "b"⟩ : SuggButton) ∈ eventButtons (script_run cfgAll "tok" transport500
      dbTwoByTwo noClicks (suggState "q" "a" [] ["b"] none) none).events ∧
    ((1, 0) : Nat × Nat) ≠ (1, 1) ∧ ("1_0" : String) ≠ "1_1" := by
  refine ⟨by decide, by decide, by decide, ?_⟩
  exact c9_distinct_widget_keys cfgAll "tok" transport500 dbTwoByTwo noClicks
    (suggState "q" "a" [] ["b"] none) none ⟨1, 0, "1_0", "a"⟩ ⟨1, 1, "1_1", "b"⟩
    (by decide) (by decide) (by decide)

end CortexAnalyst
